import Mathlib

/-!
Verification of the doctors-assistant-bot clinic booking system.

This file gives a shallow embedding, in Lean 4, of the domain operations in
`clinic/tools.py`, the conversation-state helpers in `clinic/state.py`, and the
tool-dispatch / turn-orchestration logic in `assistant-tools-main.py` and
`assistant-tools-state-main.py`, and proves (or refutes) the behavioural
properties claimed in the system's specification.

Modelling conventions:
- The CSV-backed data store (doctors.csv, schedules.csv, appointments.csv) is the
  spec's external data-access layer; its already-loaded contents are passed in
  explicitly as a `ClinicDB` value, and `save_appointment` (a CSV append) becomes
  an append to `ClinicDB.appointments`.
- Python exceptions are modelled with `Except String`; a `.error` value means the
  corresponding Python call raises.
- Python's `datetime.fromisoformat` (external stdlib) partitions input strings
  into ones that parse to a calendar date and ones that raise `ValueError`;
  `DateStr` models an input string by that partition, carrying the parsed date in
  the valid case.  `Date.weekday` implements the proleptic-Gregorian day-of-week
  computation (Monday = 0 .. Sunday = 6) used by Python's `date.weekday()`.
- Python's `str.strip`/`str.lower` (external stdlib) are modelled character-wise
  on the string's character list (`pyStrip`, `pyLower`).
- Wall-clock reads (`datetime.now()`, `ZoneInfo`) are modelled by a `Clock` value
  fixed for the duration of one call.
-/

/-! ### Python string primitives (external stdlib, modelled character-wise) -/

/-- Whitespace test used by Python's `str.strip()` (ASCII whitespace suffices here). -/
def pyIsSpace (c : Char) : Bool := c = ' ' || c = '\t' || c = '\n' || c = '\r'

/-- Model of Python `str.strip()`: drop leading and trailing whitespace. -/
def pyStrip (s : String) : String :=
  ⟨((s.data.dropWhile pyIsSpace).reverse.dropWhile pyIsSpace).reverse⟩

/-- Model of Python `str.lower()`: lowercase every character. -/
def pyLower (s : String) : String := ⟨s.data.map Char.toLower⟩

/-- Code-point lexicographic comparison on character lists (Python `str` ordering). -/
def charListLe : List Char → List Char → Bool
  | [], _ => true
  | _ :: _, [] => false
  | a :: as, b :: bs =>
    if a.toNat < b.toNat then true
    else if b.toNat < a.toNat then false
    else charListLe as bs

/-- Model of Python string `<=` (ordinal, case-sensitive). -/
def pyStrLe (s t : String) : Bool := charListLe s.data t.data

/-- Insert a string into an already-sorted list (used to model Python `sorted`). -/
def insortStr (x : String) : List String → List String
  | [] => [x]
  | y :: ys => if pyStrLe x y then x :: y :: ys else y :: insortStr x ys

/-- Model of Python `sorted` on a collection of strings (ascending ordinal order). -/
def pySorted (l : List String) : List String := l.foldr insortStr []

/-! ### Calendar dates and `datetime.fromisoformat` -/

/-- A proleptic-Gregorian calendar date, as produced by `datetime.fromisoformat(...).date()`. -/
structure Date where
  year : Int
  month : Nat
  day : Nat
deriving DecidableEq, Repr

/-- Days since the civil epoch 1970-01-01 (standard days-from-civil computation). -/
def Date.daysFromCivil (dt : Date) : Int :=
  let y : Int := if dt.month ≤ 2 then dt.year - 1 else dt.year
  let era : Int := (if 0 ≤ y then y else y - 399) / 400
  let yoe : Int := y - era * 400
  let mp : Int := (Int.ofNat dt.month + 9) % 12
  let doy : Int := (153 * mp + 2) / 5 + Int.ofNat dt.day - 1
  let doe : Int := yoe * 365 + yoe / 4 - yoe / 100 + doy
  era * 146097 + doe - 719468

/-- Day of week with Python's convention from `date.weekday()`: Monday = 0 .. Sunday = 6. -/
def Date.weekday (dt : Date) : Nat :=
  ((dt.daysFromCivil + 3) % 7).toNat

/-- Model of a Python string in date position: either it parses as an ISO calendar
date (carrying the parsed date) or `datetime.fromisoformat` raises on it.  The
empty string `""` — the tool layer's default for a missing `date_iso` argument —
is an `invalid` value. -/
inductive DateStr where
  | valid (d : Date)
  | invalid
deriving DecidableEq, Repr

/-- Model of `datetime.fromisoformat(s).date()`: the parsed date, or a raised `ValueError`. -/
def fromisoformat : DateStr → Except String Date
  | .valid d => .ok d
  | .invalid => .error "ValueError: invalid isoformat string"

/-! ### Data model (rows of the CSV-backed store, the clock) -/

/-- One row of doctors.csv: columns `doctor_name,specialty`. -/
structure DoctorRow where
  doctor_name : String
  specialty : String
deriving DecidableEq, Repr

/-- One doctor's schedule rule from schedules.csv, after `load_schedules` has
split `working_days` through `WEEKDAY_MAP` (Mon = 0 .. Sun = 6) and split
`slots` on `|`. -/
structure ScheduleRule where
  working_days : List Nat
  slots : List String
deriving DecidableEq, Repr

/-- One appointment record, as persisted by `save_appointment` and re-read by
`load_appointments`. -/
structure ApptRow where
  appointment_id : String
  doctor_name : String
  date_iso : DateStr
  time_24h : String
  patient_name : String
  patient_phone : String
  created_at : String
deriving DecidableEq, Repr

/-- The loaded contents of the CSV-backed store at one instant: what
`load_doctors()`, `load_schedules()` and `load_appointments()` return.
`schedules` is the dict keyed by `doctor_name` (association list, unique keys). -/
structure ClinicDB where
  doctors : List DoctorRow
  schedules : List (String × ScheduleRule)
  appointments : List ApptRow
deriving DecidableEq, Repr

/-- Result of `get_current_datetime`: the dict with keys
`timezone`, `iso_datetime`, `date_iso`, `weekday`. -/
structure DateTimeResult where
  timezone : String
  iso_datetime : String
  date_iso : String
  weekday : String
deriving DecidableEq, Repr

/-- The wall clock at the instant of one call.  `epoch_seconds` is
`int(datetime.now().timestamp())`; `now_ist` is
`datetime.now(ZoneInfo("Asia/Kolkata")).isoformat(timespec="seconds")`;
`nowIn tz` is the `get_current_datetime` result for an arbitrary IANA zone name
(entirely external, so kept as an opaque field of the clock). -/
structure Clock where
  epoch_seconds : Int
  now_ist : String
  nowIn : String → DateTimeResult

/-- The `patient` argument object of `book_appointment`: a JSON object whose
`name`/`phone` keys may be absent (subscripting an absent key raises `KeyError`). -/
structure PatientArg where
  name : Option String := none
  phone : Option String := none
deriving DecidableEq, Repr

/-- Result value of `book_appointment`: the dict
`{"status": "failed", "reason": r}` or `{"status": "confirmed", "appointment": record}`;
the constructor determines the `status` field. -/
inductive BookResult where
  | failed (reason : String)
  | confirmed (appointment : ApptRow)
deriving DecidableEq, Repr

/-! ### Domain operations (clinic/tools.py) -/

/-- Embedding of `list_specialties` (clinic/tools.py:62-64):
`sorted({d["specialty"] for d in doctors})`. -/
def list_specialties (db : ClinicDB) : List String :=
  pySorted ((db.doctors.map (fun d => d.specialty)).eraseDups)

/-- Embedding of `find_doctors` (clinic/tools.py:67-70): doctors whose specialty
matches case-insensitively (`lower()` on both sides, no stripping). -/
def find_doctors (db : ClinicDB) (specialty : String) : List DoctorRow :=
  let s := pyLower specialty
  db.doctors.filter (fun d => pyLower d.specialty == s)

/-- Embedding of `get_availability` (clinic/tools.py:73-93).  Unknown doctor (no
schedules row) returns `[]` before the date is parsed; then the date string is
parsed (raising on an invalid one); a weekday outside the doctor's working days
returns `[]`; otherwise the configured slots minus the booked ones, in
configured order. -/
def get_availability (db : ClinicDB) (doctor_name : String) (date_iso : DateStr) :
    Except String (List String) :=
  match db.schedules.lookup doctor_name with
  | none => .ok []
  | some rule =>
    match fromisoformat date_iso with
    | .error e => .error e
    | .ok d =>
      if d.weekday ∉ rule.working_days then .ok []
      else
        let booked := (db.appointments.filter
          (fun a => a.doctor_name == doctor_name && a.date_iso == date_iso)).map
          (fun a => a.time_24h)
        .ok (rule.slots.filter (fun s => !(booked.contains s)))

/-- The record dict that `book_appointment` constructs on success
(clinic/tools.py:110-120): identifier `APT-<epoch seconds>`, the booking fields,
and a creation timestamp in the fixed IST time zone. -/
def new_appointment_record (clock : Clock) (doctor_name : String) (date_iso : DateStr)
    (time_24h : String) (pname pphone : String) : ApptRow :=
  { appointment_id := "APT-" ++ toString clock.epoch_seconds
    doctor_name := doctor_name
    date_iso := date_iso
    time_24h := time_24h
    patient_name := pname
    patient_phone := pphone
    created_at := clock.now_ist }

/-- Embedding of `book_appointment` (clinic/tools.py:96-127).  Availability is
recomputed from the current store; an unavailable slot yields the structured
failure with status "failed" and reason "slot_not_available", with the store
unchanged; otherwise the record is built (`patient["name"]`/`patient["phone"]`
raise `KeyError` when absent) and appended to the store by `save_appointment`. -/
def book_appointment (clock : Clock) (db : ClinicDB) (doctor_name : String)
    (date_iso : DateStr) (time_24h : String) (patient : PatientArg) :
    Except String (BookResult × ClinicDB) :=
  match get_availability db doctor_name date_iso with
  | .error e => .error e
  | .ok available =>
    if time_24h ∉ available then
      .ok (.failed "slot_not_available", db)
    else
      match patient.name with
      | none => .error "KeyError: name"
      | some pname =>
        match patient.phone with
        | none => .error "KeyError: phone"
        | some pphone =>
          let record := new_appointment_record clock doctor_name date_iso time_24h pname pphone
          .ok (.confirmed record, { db with appointments := db.appointments ++ [record] })

/-- Embedding of `get_current_datetime` (clinic/tools.py:130-138): entirely a
wrapper over external stdlib time/zone lookups, modelled by the clock. -/
def get_current_datetime (clock : Clock) (timezone : String) : DateTimeResult :=
  clock.nowIn timezone

/-! ### Availability as worded by the spec (for the refinement claim C1) -/

/-- Availability as the specification words it (spec §4.4 / claim C1): unknown
doctor gives the empty list; a date whose weekday is outside the configured
working weekdays gives the empty list; otherwise the configured slot list with
every slot removed that appears in a stored appointment for that doctor and
date, in configured order.  This definition follows the spec's sentence, to be
compared against `get_availability`, which follows the code. -/
def availability_per_spec (db : ClinicDB) (doctor_name : String) (d : Date) : List String :=
  match db.schedules.lookup doctor_name with
  | none => []
  | some rule =>
    if d.weekday ∈ rule.working_days then
      rule.slots.filter (fun s =>
        !(db.appointments.any (fun a =>
          a.doctor_name == doctor_name && a.date_iso == DateStr.valid d && a.time_24h == s)))
    else []

/-! ### Tool-call layer (assistant-tools-main.py) -/

/-- The known top-level keys of a parsed tool-argument object, each absent or
present (`args.get(key, default)` reads them; unknown extra keys are never read
by `execute_tool` and so are not modelled). -/
structure ToolArgs where
  specialty : Option String := none
  doctor_name : Option String := none
  date_iso : Option DateStr := none
  time_24h : Option String := none
  patient : Option PatientArg := none
  timezone : Option String := none
deriving DecidableEq, Repr

/-- A tool-call `arguments` string as `json.loads` sees it: empty (Python-falsy),
non-empty but unparseable (raises `json.JSONDecodeError`), or parsed to an
argument object. -/
inductive ArgsJson where
  | empty
  | malformed
  | parsed (a : ToolArgs)
deriving DecidableEq, Repr

/-- Model of `json.loads` on an arguments string: the empty string and any other
unparseable string raise; a parseable object is returned. -/
def json_loads : ArgsJson → Except String ToolArgs
  | .empty => .error "JSONDecodeError: Expecting value"
  | .malformed => .error "JSONDecodeError"
  | .parsed a => .ok a

/-- Embedding of `doctor_exists` (assistant-tools-main.py:165-171, identical in
assistant-tools-state-main.py): case-insensitive, whitespace-stripped comparison
of the supplied name against every `doctor_name` in doctors.csv. -/
def doctor_exists (db : ClinicDB) (name : String) : Bool :=
  db.doctors.any (fun d => pyLower (pyStrip d.doctor_name) == pyLower (pyStrip name))

/-- Heterogeneous result value of one executed tool, as fed back to the model. -/
inductive ToolResult where
  | doctors (rows : List DoctorRow)
  | slots (xs : List String)
  | specialties (xs : List String)
  | booking (r : BookResult)
  | datetime (r : DateTimeResult)
  | unknown_tool (msg : String)
deriving DecidableEq, Repr

/-- Embedding of `execute_tool` (assistant-tools-main.py:174-197).
`args = json.loads(arguments_json) if arguments_json else {}`: the empty string
decodes to the empty object, any other argument string goes through
`json.loads` (which raises on unparseable input); each dispatch reads its keys
with `args.get(key, default)`. -/
def execute_tool (clock : Clock) (db : ClinicDB) (tool_name : String)
    (arguments_json : ArgsJson) : Except String (ToolResult × ClinicDB) :=
  match (match arguments_json with
         | .empty => Except.ok ({} : ToolArgs)
         | a => json_loads a) with
  | .error e => .error e
  | .ok args =>
    if tool_name == "find_doctors" then
      .ok (.doctors (find_doctors db (args.specialty.getD "")), db)
    else if tool_name == "get_availability" then
      match get_availability db (args.doctor_name.getD "") (args.date_iso.getD .invalid) with
      | .error e => .error e
      | .ok xs => .ok (.slots xs, db)
    else if tool_name == "book_appointment" then
      match book_appointment clock db (args.doctor_name.getD "") (args.date_iso.getD .invalid)
          (args.time_24h.getD "") (args.patient.getD {}) with
      | .error e => .error e
      | .ok (r, db') => .ok (.booking r, db')
    else if tool_name == "list_specialties" then
      .ok (.specialties (list_specialties db), db)
    else if tool_name == "get_current_datetime" then
      .ok (.datetime (get_current_datetime clock (args.timezone.getD "Asia/Kolkata")), db)
    else
      .ok (.unknown_tool ("Unknown tool: " ++ tool_name), db)

/-- One model-issued tool call: `tc["function"]["name"]`,
`tc["function"]["arguments"]`, `tc.get("id")`. -/
structure ToolCall where
  id : Option String := none
  name : String
  arguments : ArgsJson
deriving DecidableEq, Repr

/-- One assistant message from the completion endpoint: optional text content and
the (possibly empty) list of requested tool calls. -/
structure AssistantMsg where
  content : Option String := none
  tool_calls : List ToolCall := []
deriving DecidableEq, Repr

/-- The fixed canned guard reply of `run_turn` (assistant-tools-main.py:230-233
and 239-242). -/
def canned_no_doctors : String :=
  "Sorry, we do not have any doctors with that specialty at Super Clinic. Is there anything else I can help you with?"

/-- Python `isinstance(result, list)` and emptiness, over the modelled results. -/
def is_empty_list : ToolResult → Bool
  | .doctors [] => true
  | .slots [] => true
  | .specialties [] => true
  | _ => false

/-- Outcome of executing one batch of tool calls inside `run_turn`, together with
the store afterwards and the names of the tools actually executed, in order. -/
inductive BatchOutcome where
  | shortCircuit (reply : String) (db : ClinicDB) (executed : List String)
  | raised (err : String) (db : ClinicDB) (executed : List String)
  | completed (db : ClinicDB) (executed : List String)
deriving DecidableEq, Repr

/-- Record one executed tool's name in front of a batch outcome's trace. -/
def batch_prepend (name : String) : BatchOutcome → BatchOutcome
  | .shortCircuit m db tr => .shortCircuit m db (name :: tr)
  | .raised e db tr => .raised e db (name :: tr)
  | .completed db tr => .completed db (name :: tr)

/-- Prepend a whole trace in front of a batch outcome's trace. -/
def batch_concat (pre : List String) : BatchOutcome → BatchOutcome
  | .shortCircuit m db tr => .shortCircuit m db (pre ++ tr)
  | .raised e db tr => .raised e db (pre ++ tr)
  | .completed db tr => .completed db (pre ++ tr)

/-- Embedding of the tool-call loop body of `run_turn`
(assistant-tools-main.py:221-251): for each call in model order, the
`get_availability` pre-execution guard first re-parses the arguments with a bare
`json.loads` and short-circuits the whole turn with the canned message when
`doctor_exists` fails; then the tool is executed; then the `find_doctors`
empty-result guard may short-circuit.  The guard check and the execution are
sequenced here through an intermediate `Except String Bool` ("is the doctor
known, or did the re-parse raise"), which the Python expresses with early
returns. -/
def process_calls (clock : Clock) (db : ClinicDB) : List ToolCall → BatchOutcome
  | [] => .completed db []
  | tc :: rest =>
    match (if tc.name == "get_availability" then
             (json_loads tc.arguments).map
               (fun args => doctor_exists db (args.doctor_name.getD ""))
           else .ok true) with
    | .error e => .raised e db []
    | .ok known =>
      if !known then .shortCircuit canned_no_doctors db []
      else
        match execute_tool clock db tc.name tc.arguments with
        | .error e => .raised e db []
        | .ok (result, db1) =>
          if tc.name == "find_doctors" && is_empty_list result then
            .shortCircuit canned_no_doctors db1 [tc.name]
          else
            batch_prepend tc.name (process_calls clock db1 rest)

/-- Result of one whole user turn: the reply returned to the caller (final text
or a guard's canned message), a raised exception, or the supplied script of
assistant messages running out while the loop would have called the model
again.  Carries the store afterwards and all executed tool names in order. -/
inductive TurnResult where
  | reply (text : String) (db : ClinicDB) (executed : List String)
  | raised (err : String) (db : ClinicDB) (executed : List String)
  | outOfScript (db : ClinicDB) (executed : List String)
deriving DecidableEq, Repr

/-- Embedding of `run_turn` (assistant-tools-main.py:203-251).  The completion
client is external; the successive assistant messages it would return within
this turn are supplied as a script, consumed one per loop iteration.  A message
with no tool calls ends the turn with its content (`content or ""`); otherwise
the batch is processed and, when it completes without a short-circuit or an
exception, the loop asks the model again (consumes the next scripted message). -/
def run_turn (clock : Clock) (db : ClinicDB) : List AssistantMsg → TurnResult
  | [] => .outOfScript db []
  | m :: rest =>
    match m.tool_calls with
    | [] => .reply (m.content.getD "") db []
    | calls =>
      match process_calls clock db calls with
      | .shortCircuit reply db1 tr => .reply reply db1 tr
      | .raised e db1 tr => .raised e db1 tr
      | .completed db1 tr =>
        match run_turn clock db1 rest with
        | .reply t db2 tr2 => .reply t db2 (tr ++ tr2)
        | .raised e db2 tr2 => .raised e db2 (tr ++ tr2)
        | .outOfScript db2 tr2 => .outOfScript db2 (tr ++ tr2)

/-! ### Conversation state (clinic/state.py) -/

/-- Embedding of the `ConversationState` dataclass (clinic/state.py:6-17):
every field optional, `None` (= `none`) meaning unset. -/
structure ConversationState where
  patient_name : Option String := none
  patient_age : Option Int := none
  patient_phone : Option String := none
  specialty : Option String := none
  doctor_name : Option String := none
  date_iso : Option String := none
  time_24h : Option String := none
deriving DecidableEq, Repr

/-- Python truthiness of an optional string: `None` and `""` are falsy. -/
def truthyStr : Option String → Bool
  | none => false
  | some s => !(s == "")

/-- Embedding of `is_ready_to_book` (clinic/state.py:22-30): Python
`all([...])` over the listed field values, i.e. the conjunction of their
truthiness. -/
def is_ready_to_book (st : ConversationState) : Bool :=
  truthyStr st.patient_name && truthyStr st.patient_phone &&
  (truthyStr st.specialty || truthyStr st.doctor_name) &&
  truthyStr st.doctor_name && truthyStr st.date_iso && truthyStr st.time_24h

/-! ### State-update tool (assistant-tools-state-main.py) -/

/-- A JSON value in an `update_state` payload or a state field: `null`, a
string, or an integer (the only value shapes the tool schema admits). -/
inductive PyVal where
  | null
  | str (s : String)
  | int (n : Int)
deriving DecidableEq, Repr

/-- Python `k in state` on a dict modelled as a key-value list. -/
def dictHasKey (st : List (String × PyVal)) (k : String) : Bool :=
  st.any (fun kv => kv.1 == k)

/-- Python `state[k] = v` on a dict whose key `k` is present: replace the value,
preserving insertion order. -/
def dictSet (st : List (String × PyVal)) (k : String) (v : PyVal) :
    List (String × PyVal) :=
  st.map (fun kv => if kv.1 == k then (k, v) else kv)

/-- Python `state.get(k)` on a dict modelled as a key-value list. -/
def dictGet (st : List (String × PyVal)) (k : String) : Option PyVal :=
  st.lookup k

/-- The acknowledgement dict returned by the `update_state` branch:
`{"status": "ok", "updated": list(updates.keys())}`. -/
structure UpdateAck where
  status : String
  updated : List String
deriving DecidableEq, Repr

/-- Embedding of the `update_state` branch of `execute_tool`
(assistant-tools-state-main.py:233-238): iterate the payload's key-value pairs
in order, assigning each key that is already present in the state dict, and
acknowledge with `list(updates.keys())`. -/
def update_state (state updates : List (String × PyVal)) :
    List (String × PyVal) × UpdateAck :=
  (updates.foldl (fun st kv => if dictHasKey st kv.1 then dictSet st kv.1 kv.2 else st) state,
   { status := "ok", updated := updates.map (fun kv => kv.1) })

deriving instance DecidableEq for Except

/-! ### Injectivity of the decimal rendering used in `APT-` identifiers -/

/-- Numeric value of a decimal digit character. -/
def digitVal (c : Char) : Nat := c.toNat - 48

/-- Value of a most-significant-first decimal digit string. -/
def parseDigits (l : List Char) : Nat := l.foldl (fun a c => 10 * a + digitVal c) 0

/-! ### Concrete fixtures (a small loaded store, a fixed clock) -/

/-- A fixed clock for concrete evaluations. -/
def clock0 : Clock :=
  { epoch_seconds := 1766500000
    now_ist := "2025-12-23T20:30:00+05:30"
    nowIn := fun tz =>
      { timezone := tz
        iso_datetime := "2025-12-23T20:30:00+05:30"
        date_iso := "2025-12-23"
        weekday := "Tuesday" } }

/-- A second fixed clock, one second later. -/
def clock1 : Clock :=
  { epoch_seconds := 1766500001
    now_ist := "2025-12-23T20:30:01+05:30"
    nowIn := fun tz =>
      { timezone := tz
        iso_datetime := "2025-12-23T20:30:01+05:30"
        date_iso := "2025-12-23"
        weekday := "Tuesday" } }

/-- Dr X works Monday-Wednesday with three slots. -/
def drx_rule : ScheduleRule := { working_days := [0, 1, 2], slots := ["10:00", "11:00", "12:00"] }

/-- A small loaded store: two doctors, one schedule, no appointments yet. -/
def db0 : ClinicDB :=
  { doctors := [{ doctor_name := "Dr X", specialty := "Orthopedics" },
                { doctor_name := "Dr A", specialty := "General Medicine" }]
    schedules := [("Dr X", drx_rule)]
    appointments := [] }

/-- 2025-12-23 is a Tuesday (weekday 1). -/
def date0 : Date := { year := 2025, month := 12, day := 23 }

/-- A complete patient argument object. -/
def pat0 : PatientArg := { name := some "Alice", phone := some "9999999999" }

/-- The record that booking Dr X at 10:00 on `date0` under `clock0` produces. -/
def rec0 : ApptRow :=
  { appointment_id := "APT-1766500000"
    doctor_name := "Dr X"
    date_iso := .valid date0
    time_24h := "10:00"
    patient_name := "Alice"
    patient_phone := "9999999999"
    created_at := "2025-12-23T20:30:00+05:30" }

/-- The store after that booking. -/
def db1 : ClinicDB := { db0 with appointments := [rec0] }

/-- A model-issued availability lookup that passes a specialty name where a
doctor name is required. -/
def tc_orth : ToolCall :=
  { name := "get_availability"
    arguments := .parsed { doctor_name := some "Orthopedics", date_iso := some (.valid date0) } }

/-- An assistant message carrying only that tool call. -/
def msg_orth : AssistantMsg := { content := some "", tool_calls := [tc_orth] }

/-- The record a second booking (Dr X, 11:00, same date) creates under the same
clock second as `rec0` — note the identical identifier. -/
def rec0b : ApptRow :=
  { appointment_id := "APT-1766500000"
    doctor_name := "Dr X"
    date_iso := .valid date0
    time_24h := "11:00"
    patient_name := "Alice"
    patient_phone := "9999999999"
    created_at := "2025-12-23T20:30:00+05:30" }

/-- The store after both same-second bookings. -/
def db2x : ClinicDB := { db0 with appointments := [rec0, rec0b] }

/-- The record the second booking creates when its clock is one second later. -/
def rec1b : ApptRow :=
  { appointment_id := "APT-1766500001"
    doctor_name := "Dr X"
    date_iso := .valid date0
    time_24h := "11:00"
    patient_name := "Alice"
    patient_phone := "9999999999"
    created_at := "2025-12-23T20:30:01+05:30" }

/-- The store after the 10:00 booking and the later-second 11:00 booking. -/
def db2w : ClinicDB := { db0 with appointments := [rec0, rec1b] }

/-- The initial conversation-state dict of the stateful main loop
(assistant-tools-state-main.py:288-296): all seven fields present, set to null. -/
def init_state : List (String × PyVal) :=
  [("patient_name", .null), ("patient_age", .null), ("patient_phone", .null),
   ("specialty", .null), ("doctor_name", .null), ("date_iso", .null), ("time_24h", .null)]

/-- An update payload with one known key and one unknown key. -/
def upd0 : List (String × PyVal) := [("doctor_name", .str "Dr X"), ("foo", .int 1)]

/-- A conversation state whose five booking-relevant fields are all set, but with
an empty-string patient name. -/
def st_empty : ConversationState :=
  { patient_name := some ""
    patient_phone := some "9876543210"
    doctor_name := some "Dr X"
    date_iso := some "2025-12-23"
    time_24h := some "10:00" }

/-! ### Helper lemmas and claim theorems -/

/-- Membership in the booked-slots list built by `get_availability` coincides with
an existential over the stored appointments. -/
theorem contains_booked_eq_any (l : List ApptRow) (p : ApptRow → Bool) (s : String) :
    ((l.filter p).map (fun a => a.time_24h)).contains s
      = l.any (fun a => p a && a.time_24h == s) := by
  rw [Bool.eq_iff_iff, List.contains_iff_exists_mem_beq, List.any_eq_true]
  constructor
  · rintro ⟨x, hx, hbeq⟩
    rcases List.mem_map.mp hx with ⟨a, ha, rfl⟩
    rcases List.mem_filter.mp ha with ⟨hal, hap⟩
    refine ⟨a, hal, ?_⟩
    have hs : s = a.time_24h := by simpa using hbeq
    simp [hap, hs]
  · rintro ⟨a, hal, hcond⟩
    rcases (by simpa using hcond : p a = true ∧ a.time_24h = s) with ⟨hap, hts⟩
    exact ⟨a.time_24h, List.mem_map_of_mem _ (List.mem_filter.mpr ⟨hal, hap⟩), by simp [hts]⟩

/-- C1: for every doctor name and (valid-ISO) date, `get_availability` returns the
empty list for an unknown doctor, the empty list when the weekday is outside the
configured working weekdays, and otherwise the configured slot list minus the
slots stored in appointments for that doctor and date, in configured order —
i.e. it refines `availability_per_spec`. -/
theorem get_availability_matches_spec (db : ClinicDB) (doctor_name : String) (d : Date) :
    get_availability db doctor_name (.valid d) = .ok (availability_per_spec db doctor_name d) := by
  unfold get_availability availability_per_spec
  cases h : db.schedules.lookup doctor_name with
  | none => rfl
  | some rule =>
    simp only [fromisoformat]
    by_cases hw : d.weekday ∈ rule.working_days
    · rw [if_neg (by simp [hw]), if_pos hw]
      exact congrArg Except.ok (List.filter_congr (fun s _ => by
        rw [contains_booked_eq_any]))
    · rw [if_pos hw, if_neg hw]

/-! ### Booking lemmas -/

/-- Booking an unavailable slot: `book_appointment` returns the structured
failure with reason `"slot_not_available"` and leaves the store untouched. -/
theorem book_appointment_unavailable (clock : Clock) (db : ClinicDB) (dn : String)
    (date : DateStr) (t : String) (p : PatientArg) (avail : List String)
    (hav : get_availability db dn date = .ok avail) (hnot : t ∉ avail) :
    book_appointment clock db dn date t p = .ok (.failed "slot_not_available", db) := by
  simp [book_appointment, hav, hnot]

/-- Inversion of a confirmed booking: the requested slot was in the freshly
computed availability, the patient keys were present, the returned record is the
constructed one, and the new store is the old one with exactly that record
appended. -/
theorem book_appointment_confirmed_inv (clock : Clock) (db : ClinicDB) (dn : String)
    (date : DateStr) (t : String) (p : PatientArg) (r : ApptRow) (db' : ClinicDB)
    (h : book_appointment clock db dn date t p = .ok (.confirmed r, db')) :
    ∃ avail, get_availability db dn date = .ok avail ∧ t ∈ avail ∧
      ∃ pname pphone, p.name = some pname ∧ p.phone = some pphone ∧
      r = new_appointment_record clock dn date t pname pphone ∧
      db' = { db with appointments := db.appointments ++ [r] } := by
  unfold book_appointment at h
  cases hav : get_availability db dn date with
  | error e => rw [hav] at h; exact absurd h (by simp)
  | ok avail =>
    rw [hav] at h
    by_cases ht : t ∈ avail
    · cases hn : p.name with
      | none =>
        simp only [not_not_intro ht, hn] at h
        simp at h
      | some pname =>
        cases hp : p.phone with
        | none =>
          simp only [not_not_intro ht, hn, hp] at h
          simp at h
        | some pphone =>
          simp only [not_not_intro ht, hn, hp, not_true, if_false, ite_false,
            Except.ok.injEq, Prod.mk.injEq, BookResult.confirmed.injEq] at h
          obtain ⟨hr, hdb⟩ := h
          exact ⟨avail, rfl, ht, pname, pphone, rfl, rfl, hr.symm, by rw [← hdb, ← hr]⟩
    · simp only [ht, not_false_iff, if_true, ite_true, Except.ok.injEq, Prod.mk.injEq] at h
      exact absurd h.1 (by simp)

/-- Membership of a time in the booked list after appending one matching row:
it is the old membership or equality with the appended row's time. -/
theorem contains_time_append (l : List ApptRow) (p : ApptRow → Bool) (r : ApptRow)
    (hpr : p r = true) (s : String) :
    (((l ++ [r]).filter p).map (fun a => a.time_24h)).contains s
      = (((l.filter p).map (fun a => a.time_24h)).contains s || s == r.time_24h) := by
  rw [List.filter_append, List.map_append]
  simp only [List.filter_cons, hpr, if_true, List.filter_nil, List.map_cons, List.map_nil]
  rw [Bool.eq_iff_iff]
  simp only [List.contains_eq_any_beq, List.any_append, List.any_cons, List.any_nil,
    Bool.or_false, Bool.or_eq_true]

/-- Appending an appointment row for the same doctor and date filters exactly
that row's time out of the availability computed afterwards. -/
theorem get_availability_append_same (db : ClinicDB) (dn : String) (date : DateStr)
    (r : ApptRow) (avail : List String)
    (hdoc : r.doctor_name = dn) (hdate : r.date_iso = date)
    (hav : get_availability db dn date = .ok avail) :
    get_availability { db with appointments := db.appointments ++ [r] } dn date
      = .ok (avail.filter (fun s => s != r.time_24h)) := by
  cases hl : db.schedules.lookup dn with
  | none =>
    have h0 : get_availability db dn date = .ok [] := by simp [get_availability, hl]
    rw [h0] at hav
    have h1 : get_availability { db with appointments := db.appointments ++ [r] } dn date
        = .ok [] := by simp [get_availability, hl]
    simp only [Except.ok.injEq] at hav
    rw [h1, ← hav]
    rfl
  | some rule =>
    cases date with
    | invalid =>
      exfalso
      have h0 : get_availability db dn .invalid
          = .error "ValueError: invalid isoformat string" := by
        simp [get_availability, hl, fromisoformat]
      rw [h0] at hav
      exact absurd hav (by simp)
    | valid d =>
      by_cases hw : d.weekday ∈ rule.working_days
      · have h0 : get_availability db dn (.valid d)
            = .ok (rule.slots.filter (fun s => !((db.appointments.filter
                (fun a => a.doctor_name == dn && a.date_iso == DateStr.valid d)).map
                (fun a => a.time_24h)).contains s)) := by
          simp only [get_availability, hl, fromisoformat, hw, not_true_eq_false, if_false,
            ite_false]
        rw [h0] at hav
        simp only [Except.ok.injEq] at hav
        have hpr : (fun a => a.doctor_name == dn && a.date_iso == DateStr.valid d) r
            = true := by simp [hdoc, hdate]
        have h1 : get_availability { db with appointments := db.appointments ++ [r] } dn
              (.valid d)
            = .ok (rule.slots.filter (fun s => !(((db.appointments ++ [r]).filter
                (fun a => a.doctor_name == dn && a.date_iso == DateStr.valid d)).map
                (fun a => a.time_24h)).contains s)) := by
          simp only [get_availability, hl, fromisoformat, hw]
          simp only [List.filter_append, List.filter_cons, hpr, if_true, List.filter_nil,
            List.map_append, List.map_cons, List.map_nil]
          simp [hw]
        rw [h1, ← hav]
        rw [List.filter_filter]
        congr 1
        apply List.filter_congr
        intro s _
        rw [contains_time_append db.appointments _ r hpr s]
        rw [Bool.eq_iff_iff]
        simp only [Bool.not_eq_true', Bool.or_eq_false_iff, Bool.and_eq_true,
          bne_iff_ne, ne_eq]
        constructor
        · rintro ⟨h1, h2⟩
          exact ⟨by simpa using beq_eq_false_iff_ne.mp h2, h1⟩
        · rintro ⟨h1, h2⟩
          exact ⟨h2, beq_eq_false_iff_ne.mpr (by simpa using h1)⟩
      · have h0 : get_availability db dn (.valid d) = .ok [] := by
          simp [get_availability, hl, fromisoformat, hw]
        rw [h0] at hav
        simp only [Except.ok.injEq] at hav
        have h1 : get_availability { db with appointments := db.appointments ++ [r] } dn
            (.valid d) = .ok [] := by
          simp [get_availability, hl, fromisoformat, hw]
        rw [h1, ← hav]
        rfl

/-- Appending an appointment row leaves availability for every other
doctor-date pair unchanged. -/
theorem get_availability_append_other (db : ClinicDB) (dn2 : String) (date2 : DateStr)
    (r : ApptRow) (hne : ¬(r.doctor_name = dn2 ∧ r.date_iso = date2)) :
    get_availability { db with appointments := db.appointments ++ [r] } dn2 date2
      = get_availability db dn2 date2 := by
  have hpr : (fun a => a.doctor_name == dn2 && a.date_iso == date2) r = false := by
    rcases not_and_or.mp hne with hx | hx <;> simp [hx]
  cases hl : db.schedules.lookup dn2 with
  | none => simp [get_availability, hl]
  | some rule =>
    cases date2 with
    | invalid => simp [get_availability, hl, fromisoformat]
    | valid d =>
      by_cases hw : d.weekday ∈ rule.working_days
      · simp only [get_availability, hl, fromisoformat, hw]
        simp [List.filter_append, List.filter_cons, hpr]
      · simp [get_availability, hl, fromisoformat, hw]

/-- The digit accumulator of `Nat.toDigitsCore` is an append. -/
theorem toDigitsCore_append (f n : Nat) (ds : List Char) :
    Nat.toDigitsCore 10 f n ds = Nat.toDigitsCore 10 f n [] ++ ds := by
  induction f generalizing n ds with
  | zero => simp [Nat.toDigitsCore]
  | succ f ih =>
    simp only [Nat.toDigitsCore]
    by_cases h : n / 10 = 0
    · simp [h]
    · simp only [h, if_false]
      rw [ih (n / 10) (Nat.digitChar (n % 10) :: ds), ih (n / 10) [Nat.digitChar (n % 10)]]
      simp

/-- Digit characters decode back to their digit. -/
theorem digitVal_digitChar (m : Nat) (h : m < 10) : digitVal (Nat.digitChar m) = m := by
  interval_cases m <;> decide

/-- Round trip: parsing the digits of `n` yields `n` (with enough fuel). -/
theorem parseDigits_toDigitsCore (f : Nat) : ∀ n, n < f →
    parseDigits (Nat.toDigitsCore 10 f n []) = n := by
  induction f with
  | zero => intro n h; omega
  | succ f ih =>
    intro n hn
    simp only [Nat.toDigitsCore]
    by_cases h : n / 10 = 0
    · simp only [h, if_true]
      have h10 : n < 10 := by omega
      simp [parseDigits, digitVal_digitChar (n % 10) (Nat.mod_lt n (by omega))]
      omega
    · simp only [h, if_false]
      rw [toDigitsCore_append]
      have hlt : n / 10 < f := by
        have h1 : n / 10 < n := Nat.div_lt_self (by omega) (by omega)
        omega
      have := ih (n / 10) hlt
      simp only [parseDigits] at *
      rw [List.foldl_append, this]
      simp [digitVal_digitChar (n % 10) (Nat.mod_lt n (by omega))]
      omega

/-- The decimal rendering of a natural number is injective. -/
theorem Nat_repr_injective : Function.Injective Nat.repr := by
  intro m n h
  have hm : parseDigits (Nat.toDigits 10 m) = m := parseDigits_toDigitsCore (m + 1) m (by omega)
  have hn : parseDigits (Nat.toDigits 10 n) = n := parseDigits_toDigitsCore (n + 1) n (by omega)
  have hdata : Nat.toDigits 10 m = Nat.toDigits 10 n := by
    have : (Nat.repr m).data = (Nat.repr n).data := by rw [h]
    simpa [Nat.repr, List.asString] using this
  rw [← hm, ← hn, hdata]

/-- Every character of a rendered natural number is a decimal digit. -/
theorem toDigitsCore_chars (f : Nat) : ∀ n ds c, c ∈ Nat.toDigitsCore 10 f n ds →
    c ∈ ds ∨ (48 ≤ c.toNat ∧ c.toNat ≤ 57) := by
  induction f with
  | zero => intro n ds c h; simp [Nat.toDigitsCore] at h; exact Or.inl h
  | succ f ih =>
    intro n ds c h
    simp only [Nat.toDigitsCore] at h
    have hd : ∀ x, x < 10 → 48 ≤ (Nat.digitChar x).toNat ∧ (Nat.digitChar x).toNat ≤ 57 := by
      intro x hx; interval_cases x <;> decide
    by_cases h0 : n / 10 = 0
    · simp only [h0, if_true] at h
      rcases List.mem_cons.mp h with h | h
      · subst h; exact Or.inr (hd _ (Nat.mod_lt n (by omega)))
      · exact Or.inl h
    · simp only [h0, if_false] at h
      rcases ih (n / 10) (Nat.digitChar (n % 10) :: ds) c h with h | h
      · rcases List.mem_cons.mp h with h | h
        · subst h; exact Or.inr (hd _ (Nat.mod_lt n (by omega)))
        · exact Or.inl h
      · exact Or.inr h

/-- The decimal rendering of an integer (as used in f-strings) is injective. -/
theorem Int_toString_injective : Function.Injective (toString : Int → String) := by
  intro a b h
  cases a with
  | ofNat m =>
    cases b with
    | ofNat n =>
      simp only [toString] at h
      have := Nat_repr_injective (by simpa [toString] using h)
      simp [this]
    | negSucc n =>
      exfalso
      simp only [toString] at h
      have hh : (Nat.repr m).data = '-' :: (Nat.repr (n + 1)).data := by
        have : (Nat.repr m).data = ("-" ++ Nat.repr (n + 1)).data := by rw [h]
        simpa [String.data_append] using this
      have hmem : '-' ∈ (Nat.repr m).data := by rw [hh]; exact List.mem_cons_self _ _
      have := toDigitsCore_chars (m + 1) m [] '-'
        (by simpa [Nat.repr, Nat.toDigits, List.asString] using hmem)
      simp at this
  | negSucc m =>
    cases b with
    | ofNat n =>
      exfalso
      simp only [toString] at h
      have hh : (Nat.repr n).data = '-' :: (Nat.repr (m + 1)).data := by
        have : (Nat.repr n).data = ("-" ++ Nat.repr (m + 1)).data := by rw [← h]
        simpa [String.data_append] using this
      have hmem : '-' ∈ (Nat.repr n).data := by rw [hh]; exact List.mem_cons_self _ _
      have := toDigitsCore_chars (n + 1) n [] '-'
        (by simpa [Nat.repr, Nat.toDigits, List.asString] using hmem)
      simp at this
    | negSucc n =>
      simp only [toString] at h
      have hd : ('-' :: (Nat.repr (m + 1)).data) = ('-' :: (Nat.repr (n + 1)).data) := by
        have : ("-" ++ Nat.repr (m + 1)).data = ("-" ++ Nat.repr (n + 1)).data := by rw [h]
        simpa [String.data_append] using this
      have hrepr : Nat.repr (m + 1) = Nat.repr (n + 1) := String.ext (List.cons_injective hd)
      have h2 := Nat_repr_injective hrepr
      have hmn : m = n := by omega
      rw [hmn]

/-! ### Claim C2 -/

/-- C2 counterexample: at a concrete unavailable request, the structured failure
carried by `book_appointment` has reason `"slot_not_available"` (underscores),
not the claimed `"slot not available"`, so the claim's quoted reason string does
not match the code. -/
theorem C2_reason_literal_counterexample :
    book_appointment clock0 db0 "Dr X" (.valid date0) "23:00" pat0
        = .ok (.failed "slot_not_available", db0)
      ∧ book_appointment clock0 db0 "Dr X" (.valid date0) "23:00" pat0
        ≠ .ok (.failed "slot not available", db0) := by
  exact ⟨by decide, by decide⟩

/-- C2 (amended): for every booking request, `book_appointment` tests the
requested time against availability recomputed fresh from the current store, and
when the time is not in it, returns the structured failure with reason
`"slot_not_available"` and returns the appointment store unchanged — nothing is
persisted on failure. -/
theorem C2_unavailable_fails_no_side_effect (clock : Clock) (db : ClinicDB)
    (dn : String) (date : DateStr) (t : String) (p : PatientArg) (avail : List String)
    (hav : get_availability db dn date = .ok avail) (hnot : t ∉ avail) :
    book_appointment clock db dn date t p = .ok (.failed "slot_not_available", db) :=
  book_appointment_unavailable clock db dn date t p avail hav hnot

/-- C2 witness: concrete instance of the amended claim. -/
theorem C2_witness :
    book_appointment clock0 db0 "Dr X" (.valid date0) "23:00" pat0
      = .ok (.failed "slot_not_available", db0) :=
  C2_unavailable_fails_no_side_effect clock0 db0 "Dr X" (.valid date0) "23:00" pat0
    ["10:00", "11:00", "12:00"] (by decide) (by decide)

/-! ### Claim C3 -/

/-- C3 counterexample: at a concrete double-booking, the second call's failure
reason is the literal `"slot_not_available"`, not the claimed
`"slot not available"`. -/
theorem C3_reason_literal_counterexample :
    book_appointment clock0 db0 "Dr X" (.valid date0) "10:00" pat0
        = .ok (.confirmed rec0, db1)
      ∧ book_appointment clock1 db1 "Dr X" (.valid date0) "10:00" pat0
        = .ok (.failed "slot_not_available", db1)
      ∧ book_appointment clock1 db1 "Dr X" (.valid date0) "10:00" pat0
        ≠ .ok (.failed "slot not available", db1) := by
  exact ⟨by decide, by decide, by decide⟩

/-- C3 (amended): after a first successful booking of (doctor, date, time), a
second `book_appointment` for the same triple fails with reason
`"slot_not_available"` and appends no record — the store it returns is exactly
the store the first booking produced. -/
theorem C3_double_booking_fails (clock clock2 : Clock) (db : ClinicDB) (dn : String)
    (date : DateStr) (t : String) (p p2 : PatientArg) (r : ApptRow) (db' : ClinicDB)
    (h : book_appointment clock db dn date t p = .ok (.confirmed r, db')) :
    book_appointment clock2 db' dn date t p2 = .ok (.failed "slot_not_available", db') := by
  obtain ⟨avail, hav, ht, pname, pphone, hn, hp, hr, hdb⟩ :=
    book_appointment_confirmed_inv clock db dn date t p r db' h
  have hdoc : r.doctor_name = dn := by rw [hr]; rfl
  have hdate : r.date_iso = date := by rw [hr]; rfl
  have htime : r.time_24h = t := by rw [hr]; rfl
  have hva : get_availability db' dn date
      = .ok (avail.filter (fun s => s != r.time_24h)) := by
    rw [hdb]
    exact get_availability_append_same db dn date r avail hdoc hdate hav
  apply book_appointment_unavailable clock2 db' dn date t p2 _ hva
  intro hmem
  rcases List.mem_filter.mp hmem with ⟨_, hbe⟩
  rw [htime] at hbe
  simp at hbe

/-- C3 witness: concrete instance of the amended claim. -/
theorem C3_witness :
    book_appointment clock1 db1 "Dr X" (.valid date0) "10:00" pat0
      = .ok (.failed "slot_not_available", db1) :=
  C3_double_booking_fails clock0 clock1 db0 "Dr X" (.valid date0) "10:00" pat0 pat0
    rec0 db1 (by decide)

/-! ### Claim C4 -/

/-- C4: a successful booking of (doctor, date, time) removes exactly that slot
from the subsequently computed availability for that doctor and date (in
preserved order), and leaves availability unchanged for every other
doctor-or-date pair. -/
theorem C4_booking_frame (clock : Clock) (db : ClinicDB) (dn : String) (date : DateStr)
    (t : String) (p : PatientArg) (r : ApptRow) (db' : ClinicDB)
    (h : book_appointment clock db dn date t p = .ok (.confirmed r, db')) :
    (∀ avail, get_availability db dn date = .ok avail →
      get_availability db' dn date = .ok (avail.filter (fun s => s != t)))
    ∧ ∀ dn2 date2, ¬(dn2 = dn ∧ date2 = date) →
      get_availability db' dn2 date2 = get_availability db dn2 date2 := by
  obtain ⟨avail, hav, ht, pname, pphone, hn, hp, hr, hdb⟩ :=
    book_appointment_confirmed_inv clock db dn date t p r db' h
  have hdoc : r.doctor_name = dn := by rw [hr]; rfl
  have hdate : r.date_iso = date := by rw [hr]; rfl
  have htime : r.time_24h = t := by rw [hr]; rfl
  constructor
  · intro avail2 hav2
    rw [hav] at hav2
    simp only [Except.ok.injEq] at hav2
    subst hav2
    rw [hdb, ← htime]
    exact get_availability_append_same db dn date r avail hdoc hdate hav
  · intro dn2 date2 hne
    rw [hdb]
    apply get_availability_append_other
    rintro ⟨ha, hb⟩
    exact hne ⟨by rw [← ha, hdoc], by rw [← hb, hdate]⟩

/-- C4 witness: concrete instance — booking Dr X's 10:00 slot removes exactly
that slot for Dr X on that date and leaves another doctor's availability
untouched. -/
theorem C4_witness :
    get_availability db1 "Dr X" (.valid date0)
        = .ok (["10:00", "11:00", "12:00"].filter (fun s => s != "10:00"))
      ∧ get_availability db1 "Dr A" (.valid date0)
        = get_availability db0 "Dr A" (.valid date0) := by
  have h := C4_booking_frame clock0 db0 "Dr X" (.valid date0) "10:00" pat0 rec0 db1 (by decide)
  exact ⟨h.1 ["10:00", "11:00", "12:00"] (by decide), h.2 "Dr A" (.valid date0) (by decide)⟩

/-! ### Claim C5 -/

/-- A confirmed or failed booking never changes the doctor or schedule tables,
only the appointment log. -/
theorem book_appointment_preserves_tables (clock : Clock) (db : ClinicDB) (dn : String)
    (date : DateStr) (t : String) (p : PatientArg) (r : BookResult) (db1 : ClinicDB)
    (h : book_appointment clock db dn date t p = .ok (r, db1)) :
    db1.doctors = db.doctors ∧ db1.schedules = db.schedules := by
  cases r with
  | failed reason =>
    unfold book_appointment at h
    cases hav : get_availability db dn date with
    | error e => rw [hav] at h; exact absurd h (by simp)
    | ok avail =>
      rw [hav] at h
      by_cases ht : t ∈ avail
      · cases hn : p.name with
        | none => simp [not_not_intro ht, hn] at h
        | some pname =>
          cases hp : p.phone with
          | none => simp [not_not_intro ht, hn, hp] at h
          | some pphone => simp [not_not_intro ht, hn, hp] at h
      · simp only [ht, not_false_iff, if_true, ite_true, Except.ok.injEq, Prod.mk.injEq] at h
        rw [← h.2]
        exact ⟨rfl, rfl⟩
  | confirmed rec =>
    obtain ⟨_, _, _, _, _, _, _, _, hdb⟩ :=
      book_appointment_confirmed_inv clock db dn date t p rec db1 h
    rw [hdb]
    exact ⟨rfl, rfl⟩

/-- Executing any single tool never changes the doctor or schedule tables. -/
theorem execute_tool_preserves_tables (clock : Clock) (db : ClinicDB) (name : String)
    (args : ArgsJson) (res : ToolResult) (db1 : ClinicDB)
    (h : execute_tool clock db name args = .ok (res, db1)) :
    db1.doctors = db.doctors ∧ db1.schedules = db.schedules := by
  unfold execute_tool at h
  cases hj : (match args with
              | .empty => Except.ok ({} : ToolArgs)
              | a => json_loads a) with
  | error e => rw [hj] at h; exact absurd h (by simp)
  | ok a =>
    rw [hj] at h
    by_cases h1 : (name == "find_doctors") = true
    · simp only [h1, if_true, ite_true, Except.ok.injEq, Prod.mk.injEq] at h
      obtain ⟨hres, hdb⟩ := h
      subst hdb
      exact ⟨rfl, rfl⟩
    · by_cases h2 : (name == "get_availability") = true
      · simp only [h1, h2, Bool.false_eq_true, Bool.true_eq_false, if_true, if_false,
          ite_true, ite_false] at h
        cases hg : get_availability db (a.doctor_name.getD "") (a.date_iso.getD .invalid) with
        | error e => rw [hg] at h; exact absurd h (by simp)
        | ok xs =>
          rw [hg] at h
          simp only [Except.ok.injEq, Prod.mk.injEq] at h
          obtain ⟨hres, hdb⟩ := h
          subst hdb
          exact ⟨rfl, rfl⟩
      · by_cases h3 : (name == "book_appointment") = true
        · simp only [h1, h2, h3, Bool.false_eq_true, Bool.true_eq_false, if_true, if_false,
            ite_true, ite_false] at h
          cases hb : book_appointment clock db (a.doctor_name.getD "") (a.date_iso.getD .invalid)
              (a.time_24h.getD "") (a.patient.getD {}) with
          | error e => rw [hb] at h; exact absurd h (by simp)
          | ok pr =>
            obtain ⟨r, db2⟩ := pr
            rw [hb] at h
            simp only [Except.ok.injEq, Prod.mk.injEq] at h
            obtain ⟨hres, hdb⟩ := h
            subst hdb
            exact book_appointment_preserves_tables clock db _ _ _ _ r db2 hb
        · by_cases h4 : (name == "list_specialties") = true
          · simp only [h1, h2, h3, h4, Bool.false_eq_true, Bool.true_eq_false, if_true,
              if_false, ite_true, ite_false, Except.ok.injEq, Prod.mk.injEq] at h
            obtain ⟨hres, hdb⟩ := h
            subst hdb
            exact ⟨rfl, rfl⟩
          · by_cases h5 : (name == "get_current_datetime") = true
            · simp only [h1, h2, h3, h4, h5, Bool.false_eq_true, Bool.true_eq_false, if_true,
                if_false, ite_true, ite_false, Except.ok.injEq, Prod.mk.injEq] at h
              obtain ⟨hres, hdb⟩ := h
              subst hdb
              exact ⟨rfl, rfl⟩
            · simp only [h1, h2, h3, h4, h5, Bool.false_eq_true, Bool.true_eq_false, if_true,
                if_false, ite_true, ite_false, Except.ok.injEq, Prod.mk.injEq] at h
              obtain ⟨hres, hdb⟩ := h
              subst hdb
              exact ⟨rfl, rfl⟩

/-- Processing a batch to completion never changes the doctor or schedule
tables. -/
theorem process_calls_preserves_tables (clock : Clock) (calls : List ToolCall) :
    ∀ (db db' : ClinicDB) (tr : List String),
    process_calls clock db calls = .completed db' tr →
    db'.doctors = db.doctors ∧ db'.schedules = db.schedules := by
  induction calls with
  | nil =>
    intro db db' tr h
    simp only [process_calls, BatchOutcome.completed.injEq] at h
    rw [← h.1]; exact ⟨rfl, rfl⟩
  | cons tc rest ih =>
    intro db db' tr h
    simp only [process_calls] at h
    cases hg : (if tc.name == "get_availability" then
        (json_loads tc.arguments).map (fun args => doctor_exists db (args.doctor_name.getD ""))
      else .ok true) with
    | error e => rw [hg] at h; simp at h
    | ok known =>
      rw [hg] at h
      cases known with
      | false => simp at h
      | true =>
        simp only [Bool.not_true, Bool.false_eq_true, if_false, ite_false] at h
        cases hx : execute_tool clock db tc.name tc.arguments with
        | error e => rw [hx] at h; simp at h
        | ok pr =>
          obtain ⟨result, db1⟩ := pr
          rw [hx] at h
          by_cases hfd : (tc.name == "find_doctors" && is_empty_list result) = true
          · simp only [hfd, if_true, ite_true] at h
            simp at h
          · simp only [hfd, Bool.false_eq_true, if_false, ite_false] at h
            cases hrec : process_calls clock db1 rest with
            | shortCircuit m db2 tr2 => rw [hrec] at h; simp [batch_prepend] at h
            | raised e db2 tr2 => rw [hrec] at h; simp [batch_prepend] at h
            | completed db2 tr2 =>
              rw [hrec] at h
              simp only [batch_prepend, BatchOutcome.completed.injEq] at h
              have hstep := execute_tool_preserves_tables clock db tc.name tc.arguments
                result db1 hx
              have htail := ih db1 db2 tr2 hrec
              rw [← h.1]
              exact ⟨htail.1.trans hstep.1, htail.2.trans hstep.2⟩

/-- Splitting a batch: once a prefix completes normally, processing the whole
batch is processing the rest from the intermediate store, with the prefix's
trace in front. -/
theorem process_calls_append (clock : Clock) (pre : List ToolCall) :
    ∀ (calls : List ToolCall) (db db' : ClinicDB) (tr : List String),
    process_calls clock db pre = .completed db' tr →
    process_calls clock db (pre ++ calls)
      = batch_concat tr (process_calls clock db' calls) := by
  induction pre with
  | nil =>
    intro calls db db' tr h
    simp only [process_calls, BatchOutcome.completed.injEq] at h
    rw [List.nil_append, ← h.1, ← h.2]
    cases hc : process_calls clock db calls <;> simp [batch_concat]
  | cons tc pre ih =>
    intro calls db db' tr h
    simp only [process_calls, List.cons_append] at h ⊢
    cases hg : (if tc.name == "get_availability" then
        (json_loads tc.arguments).map (fun args => doctor_exists db (args.doctor_name.getD ""))
      else .ok true) with
    | error e => rw [hg] at h; simp at h
    | ok known =>
      rw [hg] at h
      cases known with
      | false => simp at h
      | true =>
        simp only [Bool.not_true, Bool.false_eq_true, if_false, ite_false] at h ⊢
        cases hx : execute_tool clock db tc.name tc.arguments with
        | error e => rw [hx] at h; simp at h
        | ok pr =>
          obtain ⟨result, db1⟩ := pr
          rw [hx] at h
          by_cases hfd : (tc.name == "find_doctors" && is_empty_list result) = true
          · simp only [hfd, if_true, ite_true] at h
            simp at h
          · simp only [hfd, Bool.false_eq_true, if_false, ite_false] at h ⊢
            cases hrec : process_calls clock db1 pre with
            | shortCircuit m db2 tr2 => rw [hrec] at h; simp [batch_prepend] at h
            | raised e db2 tr2 => rw [hrec] at h; simp [batch_prepend] at h
            | completed db2 tr2 =>
              rw [hrec] at h
              simp only [batch_prepend, BatchOutcome.completed.injEq] at h
              obtain ⟨hdb2, htr⟩ := h
              subst hdb2
              have hmain := ih calls db1 db2 tr2 hrec
              change batch_prepend tc.name (process_calls clock db1 (pre ++ calls))
                  = batch_concat tr (process_calls clock db2 calls)
              rw [hmain, ← htr]
              cases hc : process_calls clock db2 calls <;> simp [batch_prepend, batch_concat]

/-- Unfolding `run_turn` on a message that carries at least one tool call. -/
theorem run_turn_cons_calls (clock : Clock) (db : ClinicDB) (c : Option String)
    (calls : List ToolCall) (hne : calls ≠ []) (rest : List AssistantMsg) :
    run_turn clock db ({ content := c, tool_calls := calls } :: rest)
      = match process_calls clock db calls with
        | .shortCircuit reply db1 tr => .reply reply db1 tr
        | .raised e db1 tr => .raised e db1 tr
        | .completed db1 tr =>
          match run_turn clock db1 rest with
          | .reply t db2 tr2 => .reply t db2 (tr ++ tr2)
          | .raised e db2 tr2 => .raised e db2 (tr ++ tr2)
          | .outOfScript db2 tr2 => .outOfScript db2 (tr ++ tr2) := by
  cases calls with
  | nil => exact absurd rfl hne
  | cons a as => rfl

/-- C5: in the guarded orchestrator, when a batch's tool calls before some
`get_availability` call complete normally and that call's `doctor_name` fails
the case-insensitive `doctor_exists` check against the doctor records, then
`run_turn` returns the fixed canned "no doctors with that specialty" message
immediately: the availability tool is not executed (the executed-tool trace
stays that of the prefix), no later call of the batch runs, the store stays as
the prefix left it, and no further scripted model message is consumed. -/
theorem C5_availability_guard_short_circuits (clock : Clock) (db db' : ClinicDB)
    (pre post : List ToolCall) (tc : ToolCall) (args : ToolArgs) (c : Option String)
    (rest : List AssistantMsg) (tr : List String)
    (hname : tc.name = "get_availability")
    (hparse : json_loads tc.arguments = .ok args)
    (hunknown : doctor_exists db (args.doctor_name.getD "") = false)
    (hpre : process_calls clock db pre = .completed db' tr) :
    run_turn clock db ({ content := c, tool_calls := pre ++ tc :: post } :: rest)
      = .reply canned_no_doctors db' tr := by
  have hne : pre ++ tc :: post ≠ [] := by cases pre <;> simp
  have hdocs : db'.doctors = db.doctors :=
    (process_calls_preserves_tables clock pre db db' tr hpre).1
  have hde : doctor_exists db' (args.doctor_name.getD "") = false := by
    unfold doctor_exists at hunknown ⊢
    rw [hdocs]
    exact hunknown
  have hcall : process_calls clock db' (tc :: post)
      = .shortCircuit canned_no_doctors db' [] := by
    simp [process_calls, hname, hparse, Except.map, hde]
  rw [run_turn_cons_calls clock db c (pre ++ tc :: post) hne rest]
  rw [process_calls_append clock pre (tc :: post) db db' tr hpre]
  rw [hcall]
  simp [batch_concat]

/-- C5 witness: the spec's own guard scenario — `get_availability` called with
doctor_name "Orthopedics" (a specialty) short-circuits the turn with the canned
message, executes nothing, and consumes no further scripted message. -/
theorem C5_witness : run_turn clock0 db0 [msg_orth] = .reply canned_no_doctors db0 [] :=
  C5_availability_guard_short_circuits clock0 db0 db0 [] []
    tc_orth { doctor_name := some "Orthopedics", date_iso := some (.valid date0) }
    (some "") [] [] rfl rfl (by decide) rfl

/-! ### Claim C6 -/

/-- C6 counterexample: a non-empty unparseable arguments string makes
`execute_tool` raise the JSON decode error instead of defaulting — a single bad
tool call does crash the turn. -/
theorem C6_malformed_args_raise_counterexample :
    execute_tool clock0 db0 "get_availability" .malformed = .error "JSONDecodeError" := by
  decide

/-- C6 (amended): a missing or empty argument string decodes to the empty
argument object (the call behaves exactly as with `{}`, whose keys are then read
through defaulting `get`s), but a non-empty unparseable argument string is not
defaulted: `json.loads` raises and the error propagates out of `execute_tool`
for every tool name. -/
theorem C6_empty_defaults_malformed_raises (clock : Clock) (db : ClinicDB) (name : String) :
    execute_tool clock db name .empty = execute_tool clock db name (.parsed {})
      ∧ execute_tool clock db name .malformed = .error "JSONDecodeError" :=
  ⟨rfl, rfl⟩

/-! ### Claim C7 -/

/-- C7 counterexample: an unknown key is ignored by the state merge (the state
is unchanged) yet the acknowledgement still lists it, so the acknowledgement
does not list exactly the applied keys. -/
theorem C7_ack_lists_ignored_keys_counterexample :
    (update_state init_state [("foo", .str "bar")]).1 = init_state
      ∧ (update_state init_state [("foo", .str "bar")]).2.updated = ["foo"] := by
  exact ⟨by decide, by decide⟩

/-- Setting a key present in the dict stores that value. -/
theorem dictGet_dictSet_self (st : List (String × PyVal)) (k : String) (v : PyVal)
    (h : dictHasKey st k = true) : dictGet (dictSet st k v) k = some v := by
  induction st with
  | nil => simp [dictHasKey] at h
  | cons kv t ih =>
    obtain ⟨k1, v1⟩ := kv
    simp only [dictHasKey, List.any_cons, Bool.or_eq_true] at h
    simp only [dictSet, List.map_cons]
    by_cases hk : (k1 == k) = true
    · rw [if_pos hk]
      simp only [dictGet, List.lookup_cons, beq_self_eq_true]
    · rw [if_neg hk]
      have hmem : dictHasKey t k = true := by
        rcases h with h | h
        · exact absurd h hk
        · exact h
      have hkk : (k == k1) = false := by
        have hne : ¬ k1 = k := by simpa using hk
        exact beq_eq_false_iff_ne.mpr (fun hh => hne hh.symm)
      simp only [dictGet, List.lookup_cons, hkk]
      exact ih hmem

/-- Setting one key leaves every other key's value unchanged. -/
theorem dictGet_dictSet_ne (st : List (String × PyVal)) (k k2 : String) (v : PyVal)
    (h : k2 ≠ k) : dictGet (dictSet st k v) k2 = dictGet st k2 := by
  induction st with
  | nil => rfl
  | cons kv t ih =>
    obtain ⟨k1, v1⟩ := kv
    simp only [dictSet, List.map_cons]
    by_cases hk : (k1 == k) = true
    · rw [if_pos hk]
      have hk1 : k1 = k := by simpa using hk
      have h2k : (k2 == k) = false := by simpa using h
      simp only [dictGet, List.lookup_cons, hk1, h2k]
      exact ih
    · rw [if_neg hk]
      simp only [dictGet, List.lookup_cons]
      cases hkk : k2 == k1
      · exact ih
      · rfl

/-- Setting a key does not change which keys are present. -/
theorem dictHasKey_dictSet (st : List (String × PyVal)) (k k2 : String) (v : PyVal) :
    dictHasKey (dictSet st k v) k2 = dictHasKey st k2 := by
  induction st with
  | nil => rfl
  | cons kv t ih =>
    obtain ⟨k1, v1⟩ := kv
    simp only [dictSet, List.map_cons, dictHasKey, List.any_cons]
    have htail : ((List.map (fun kv => if kv.1 == k then (k, v) else kv) t).any
        fun kv => kv.1 == k2) = dictHasKey (dictSet t k v) k2 := rfl
    by_cases hk : (k1 == k) = true
    · have hk1 : k1 = k := by simpa using hk
      rw [if_pos hk, htail, ih, hk1]
      rfl
    · rw [if_neg hk, htail, ih]
      rfl

/-- The state-merge fold does not change which keys are present. -/
theorem update_fold_hasKey (updates : List (String × PyVal)) :
    ∀ (st : List (String × PyVal)) (k : String),
    dictHasKey (updates.foldl
      (fun st kv => if dictHasKey st kv.1 then dictSet st kv.1 kv.2 else st) st) k
      = dictHasKey st k := by
  induction updates with
  | nil => intro st k; rfl
  | cons u rest ih =>
    intro st k
    simp only [List.foldl_cons]
    rw [ih]
    by_cases hu : dictHasKey st u.1 = true
    · rw [if_pos hu, dictHasKey_dictSet]
    · rw [if_neg hu]

/-- The state-merge fold leaves keys outside the payload untouched. -/
theorem update_fold_get_not_mem (updates : List (String × PyVal)) :
    ∀ (st : List (String × PyVal)) (k : String),
    k ∉ updates.map (fun kv => kv.1) →
    dictGet (updates.foldl
      (fun st kv => if dictHasKey st kv.1 then dictSet st kv.1 kv.2 else st) st) k
      = dictGet st k := by
  induction updates with
  | nil => intro st k _; rfl
  | cons u rest ih =>
    intro st k hk
    simp only [List.map_cons, List.mem_cons, not_or] at hk
    simp only [List.foldl_cons]
    rw [ih _ k hk.2]
    by_cases hu : dictHasKey st u.1 = true
    · rw [if_pos hu, dictGet_dictSet_ne _ _ _ _ hk.1]
    · rw [if_neg hu]

/-- The state-merge fold applies every payload entry whose key is a known state
key (payload keys unique). -/
theorem update_fold_get_mem (updates : List (String × PyVal)) :
    ∀ (st : List (String × PyVal)) (k : String) (v : PyVal),
    (updates.map (fun kv => kv.1)).Nodup → (k, v) ∈ updates → dictHasKey st k = true →
    dictGet (updates.foldl
      (fun st kv => if dictHasKey st kv.1 then dictSet st kv.1 kv.2 else st) st) k
      = some v := by
  induction updates with
  | nil => intro st k v _ hm; simp at hm
  | cons u rest ih =>
    intro st k v hnd hm hhk
    simp only [List.map_cons, List.nodup_cons] at hnd
    simp only [List.foldl_cons]
    rcases List.mem_cons.mp hm with hm | hm
    · have hk1 : u.1 = k := by rw [← hm]
      have hv : u.2 = v := by rw [← hm]
      rw [hk1, hv, if_pos hhk]
      rw [update_fold_get_not_mem rest _ k (by rw [← hk1]; exact hnd.1)]
      exact dictGet_dictSet_self st k v hhk
    · have hstep : dictHasKey (if dictHasKey st u.1 then dictSet st u.1 u.2 else st) k
          = dictHasKey st k := by
        by_cases hu : dictHasKey st u.1 = true
        · rw [if_pos hu, dictHasKey_dictSet]
        · rw [if_neg hu]
      exact ih _ k v hnd.2 hm (by rw [hstep]; exact hhk)

/-- C7 (amended): for a payload with unique keys, every payload entry naming a
known state key is applied (null included), keys absent from the payload keep
their values, no key is added or removed (unknown keys are ignored), and the
acknowledgement lists all of the payload's keys — including the ignored ones,
not only the applied ones. -/
theorem C7_update_state_contract (state updates : List (String × PyVal)) (k : String)
    (hnd : (updates.map (fun kv => kv.1)).Nodup) :
    (∀ v, (k, v) ∈ updates → dictHasKey state k = true →
      dictGet (update_state state updates).1 k = some v)
    ∧ (k ∉ updates.map (fun kv => kv.1) →
      dictGet (update_state state updates).1 k = dictGet state k)
    ∧ dictHasKey (update_state state updates).1 k = dictHasKey state k
    ∧ (update_state state updates).2
      = { status := "ok", updated := updates.map (fun kv => kv.1) } := by
  refine ⟨?_, ?_, ?_, rfl⟩
  · intro v hm hhk
    exact update_fold_get_mem updates state k v hnd hm hhk
  · intro hk
    exact update_fold_get_not_mem updates state k hk
  · exact update_fold_hasKey updates state k

/-- C7 witness: concrete instance — the known key is applied, an untouched key
keeps its value, the unknown key adds nothing, and the acknowledgement lists
both payload keys. -/
theorem C7_witness :
    dictGet (update_state init_state upd0).1 "doctor_name" = some (.str "Dr X")
      ∧ dictGet (update_state init_state upd0).1 "patient_name" = dictGet init_state "patient_name"
      ∧ dictHasKey (update_state init_state upd0).1 "foo" = dictHasKey init_state "foo"
      ∧ (update_state init_state upd0).2 = { status := "ok", updated := ["doctor_name", "foo"] } := by
  refine ⟨?_, ?_, ?_, ?_⟩
  · exact (C7_update_state_contract init_state upd0 "doctor_name" (by decide)).1
      (.str "Dr X") (by decide) (by decide)
  · exact (C7_update_state_contract init_state upd0 "patient_name" (by decide)).2.1 (by decide)
  · exact (C7_update_state_contract init_state upd0 "foo" (by decide)).2.2.1
  · exact (C7_update_state_contract init_state upd0 "x" (by decide)).2.2.2

/-! ### Claim C8 -/

/-- C8 counterexample: two successful bookings that happen in the same
wall-clock second persist records with the same `APT-<epoch seconds>`
identifier, so successful bookings do not always generate unique identifiers. -/
theorem C8_same_second_id_collision_counterexample :
    book_appointment clock0 db0 "Dr X" (.valid date0) "10:00" pat0
        = .ok (.confirmed rec0, db1)
      ∧ book_appointment clock0 db1 "Dr X" (.valid date0) "11:00" pat0
        = .ok (.confirmed rec0b, db2x)
      ∧ rec0.appointment_id = rec0b.appointment_id := by
  exact ⟨by decide, by decide, by decide⟩

/-- C8 (amended): two successful bookings whose clocks read distinct integer
epoch seconds persist records with distinct `APT-<epoch seconds>` identifiers,
and each persisted record carries the booking-time creation timestamp taken in
the fixed IST time zone.  Bookings within the same second share one identifier. -/
theorem C8_distinct_seconds_distinct_ids (c1 c2 : Clock) (dbA dbB dbA1 dbB1 : ClinicDB)
    (dn1 dn2 : String) (d1 d2 : DateStr) (t1 t2 : String) (p1 p2 : PatientArg)
    (r1 r2 : ApptRow)
    (h1 : book_appointment c1 dbA dn1 d1 t1 p1 = .ok (.confirmed r1, dbA1))
    (h2 : book_appointment c2 dbB dn2 d2 t2 p2 = .ok (.confirmed r2, dbB1))
    (hsec : c1.epoch_seconds ≠ c2.epoch_seconds) :
    r1.appointment_id ≠ r2.appointment_id
      ∧ r1.created_at = c1.now_ist ∧ r2.created_at = c2.now_ist := by
  obtain ⟨_, _, _, pn1, pp1, _, _, hr1, _⟩ :=
    book_appointment_confirmed_inv c1 dbA dn1 d1 t1 p1 r1 dbA1 h1
  obtain ⟨_, _, _, pn2, pp2, _, _, hr2, _⟩ :=
    book_appointment_confirmed_inv c2 dbB dn2 d2 t2 p2 r2 dbB1 h2
  refine ⟨?_, by rw [hr1]; rfl, by rw [hr2]; rfl⟩
  rw [hr1, hr2]
  simp only [new_appointment_record]
  intro heq
  have hdata := congrArg String.data heq
  simp only [String.data_append] at hdata
  have htail := List.append_cancel_left hdata
  have hstr : toString c1.epoch_seconds = toString c2.epoch_seconds := String.ext htail
  exact hsec (Int_toString_injective hstr)

/-- C8 witness: concrete instance of the amended claim — one second apart, the
identifiers differ and the timestamps are the respective IST clock readings. -/
theorem C8_witness :
    rec0.appointment_id ≠ rec1b.appointment_id
      ∧ rec0.created_at = clock0.now_ist ∧ rec1b.created_at = clock1.now_ist :=
  C8_distinct_seconds_distinct_ids clock0 clock1 db0 db1 db1 db2w "Dr X" "Dr X"
    (.valid date0) (.valid date0) "10:00" "11:00" pat0 pat0 rec0 rec1b
    (by decide) (by decide) (by decide)

/-! ### Claim C9 -/

/-- C9 counterexample: a state whose five booking fields are all set (none is
the unset marker `None`) but whose patient name is the empty string is reported
not ready — `is_ready_to_book` uses Python truthiness and so conflates the
empty string with unset, contradicting the claimed set/unset reading. -/
theorem C9_empty_string_conflated_counterexample :
    st_empty.patient_name ≠ none ∧ st_empty.patient_phone ≠ none
      ∧ st_empty.doctor_name ≠ none ∧ st_empty.date_iso ≠ none
      ∧ st_empty.time_24h ≠ none
      ∧ is_ready_to_book st_empty = false := by
  decide

/-- Truthiness of an optional string, split into the two claims it combines. -/
theorem truthyStr_eq_true (o : Option String) :
    truthyStr o = true ↔ (o ≠ none ∧ o ≠ some "") := by
  cases o with
  | none => simp [truthyStr]
  | some s => simp [truthyStr]

/-- C9 (amended): `is_ready_to_book` returns true iff patient_name,
patient_phone, doctor_name, date_iso and time_24h each hold a truthy value —
set and non-empty; specialty is not independently required once doctor_name is
truthy.  An empty string counts as unset here, unlike what the claim states. -/
theorem C9_ready_iff_all_truthy (st : ConversationState) :
    is_ready_to_book st = true ↔
      (st.patient_name ≠ none ∧ st.patient_name ≠ some ""
        ∧ st.patient_phone ≠ none ∧ st.patient_phone ≠ some ""
        ∧ st.doctor_name ≠ none ∧ st.doctor_name ≠ some ""
        ∧ st.date_iso ≠ none ∧ st.date_iso ≠ some ""
        ∧ st.time_24h ≠ none ∧ st.time_24h ≠ some "") := by
  simp only [is_ready_to_book, Bool.and_eq_true, Bool.or_eq_true, truthyStr_eq_true]
  tauto

/-! ### Claim C10 -/

/-- C10: a name that differs from a scheduled doctor's name only in letter case
or surrounding whitespace — so that the stripped, lowercased forms agree — is
accepted by `doctor_exists` (the guard lets the call through), yet as long as
the variant itself is not a schedule key, `get_availability` returns the empty
list for it on every date, because the schedule lookup is exact and
case-sensitive. -/
theorem C10_guard_accepts_schedule_misses (db : ClinicDB) (canonical variant : String)
    (row : DoctorRow) (hrow : row ∈ db.doctors) (hname : row.doctor_name = canonical)
    (hcanon : pyLower (pyStrip variant) = pyLower (pyStrip canonical))
    (hnokey : ∀ kv ∈ db.schedules, kv.1 ≠ variant) :
    doctor_exists db variant = true
      ∧ ∀ date, get_availability db variant date = .ok [] := by
  constructor
  · unfold doctor_exists
    rw [List.any_eq_true]
    exact ⟨row, hrow, by simp [hname, hcanon]⟩
  · intro date
    have hl : db.schedules.lookup variant = none := by
      rw [List.lookup_eq_none_iff]
      intro p hp
      simpa using (fun hh => hnokey p hp hh.symm : ¬ variant = p.1)
    simp [get_availability, hl]

/-- C10 witness: " dr x " passes the guard against the configured "Dr X" but
has empty availability on a working day on which "Dr X" has free slots. -/
theorem C10_witness :
    doctor_exists db0 " dr x " = true
      ∧ get_availability db0 " dr x " (.valid date0) = .ok [] := by
  have h := C10_guard_accepts_schedule_misses db0 "Dr X" " dr x "
    { doctor_name := "Dr X", specialty := "Orthopedics" }
    (by decide) rfl (by decide) (by decide)
  exact ⟨h.1, h.2 (.valid date0)⟩
